import Mathlib

/-!
Verification of the DeltaOptima core: a shallow embedding of
`pipeTimer_src/analysis/engine.py` (the run-history analyzer and duration
formatter) and `pipeTimer_src/parsers/spark_event_log_parser.py` (the Spark
event-log aggregator), together with theorems settling the frozen claims.

Modelling conventions:
* JSON numeric fields become `Option ℤ` (ms timestamps, byte counts, ids);
  an absent key, or a key present with JSON `null`, is `none`.
* Python float arithmetic in the duration formatter and the statistics is
  modelled over `ℚ`; two-decimal rendering models CPython's `f"{x:.2f}"`
  with ties rounded via `round` (ties are immaterial to every claim).
* Python `sorted` (a stable mergesort) becomes `List.mergeSort` with the
  corresponding boolean relation; `reverse=True` sorting is the stable sort
  by the flipped non-strict relation, which agrees with CPython.
* `np.std` stores the square root of the population variance; the model
  records the variance itself (field `std_dev_sq`) since no claim concerns
  the standard-deviation value and the square root leaves `ℚ`.
-/

namespace DeltaOptima

/-- Two-decimal rendering of a rational, modelling CPython `f"{x:.2f}"`. -/
def fmtTwoDec (q : ℚ) : String :=
  let c : ℤ := round (q * 100)
  let sign := if c < 0 then "-" else ""
  let m := c.natAbs
  let frac := m % 100
  sign ++ toString (m / 100) ++ "." ++
    (if frac < 10 then "0" ++ toString frac else toString frac)

/-- Embeds `AnalysisEngine._format_duration`.  `none` is Python `None`.
The input is the millisecond count; Python computes `seconds = ms / 1000.0`
and cascades `divmod` through days/hours/minutes. -/
def formatDuration : Option ℚ → String
  | none => "N/A"
  | some ms =>
    let seconds : ℚ := ms / 1000
    if seconds < 0 then "Invalid duration" else
    let days : ℤ := ⌊seconds / 86400⌋
    let rem1 : ℚ := seconds - (days : ℚ) * 86400
    let hours : ℤ := ⌊rem1 / 3600⌋
    let rem2 : ℚ := rem1 - (hours : ℚ) * 3600
    let minutes : ℤ := ⌊rem2 / 60⌋
    let secondsVal : ℚ := rem2 - (minutes : ℚ) * 60
    let parts1 : List String := if 0 < days then [toString days ++ "d"] else []
    let parts2 : List String :=
      if 0 < hours then parts1 ++ [toString hours ++ "h"] else parts1
    let parts3 : List String :=
      if 0 < minutes then parts2 ++ [toString minutes ++ "m"] else parts2
    let parts4 : List String :=
      if 0 < secondsVal ∨ parts3 = [] ∨ (days = 0 ∧ hours = 0 ∧ minutes = 0)
      then parts3 ++ [fmtTwoDec secondsVal ++ "s"] else parts3
    if parts4 = [] then "0.00s" else String.intercalate " " parts4

/-- Zero-padded two-digit rendering of a (non-negative, in range) integer. -/
def pad2 (n : ℤ) : String := if n < 10 then "0" ++ toString n else toString n

/-- Zero-padded four-digit rendering of the year. -/
def pad4 (n : ℤ) : String :=
  if n < 10 then "000" ++ toString n
  else if n < 100 then "00" ++ toString n
  else if n < 1000 then "0" ++ toString n
  else toString n

/-- Proleptic-Gregorian civil date from a count of days since 1970-01-01
(the classical era-based conversion used by all UTC timestamp libraries). -/
def civilFromDays (days : ℤ) : ℤ × ℤ × ℤ :=
  let z := days + 719468
  let era := z.fdiv 146097
  let doe := z - era * 146097
  let yoe := (doe - doe.fdiv 1460 + doe.fdiv 36524 - doe.fdiv 146096).fdiv 365
  let y := yoe + era * 400
  let doy := doe - (365 * yoe + yoe.fdiv 4 - yoe.fdiv 100)
  let mp := (5 * doy + 2).fdiv 153
  let d := doy - (153 * mp + 2).fdiv 5 + 1
  let m := mp + (if mp < 10 then 3 else -9)
  (y + (if m ≤ 2 then 1 else 0), m, d)

/-- Embeds `AnalysisEngine._format_timestamp`: UTC rendering of an epoch-ms
value as `%Y-%m-%d %H:%M:%S`, with ` UTC` appended when `includeTz`.
Sub-second precision is dropped (strftime `%S` shows whole seconds). -/
def formatTimestamp (timestampMs : Option ℚ) (includeTz : Bool) : String :=
  match timestampMs with
  | none => "N/A"
  | some ms =>
    let total : ℤ := ⌊ms / 1000⌋
    let days := total.fdiv 86400
    let sod := total - days * 86400
    let ymd := civilFromDays days
    let base := pad4 ymd.1 ++ "-" ++ pad2 ymd.2.1 ++ "-" ++ pad2 ymd.2.2 ++ " " ++
      pad2 (sod.fdiv 3600) ++ ":" ++ pad2 ((sod.fdiv 60) % 60) ++ ":" ++ pad2 (sod % 60)
    if includeTz then base ++ " UTC" else base

/-- One raw run record, the input shape of `analyze_run_history`
(keys `run_id`, `start_time`, `execution_duration`, `result_state`;
`none` models an absent key or a JSON `null` value). -/
structure RunRecord where
  run_id : Option ℤ
  start_time : Option ℤ
  execution_duration : Option ℤ
  result_state : Option String
deriving Repr, DecidableEq

/-- `durations_ms`: the comprehension keeping only non-`None` durations. -/
def durationsMs (rs : List RunRecord) : List ℤ :=
  rs.filterMap (fun r => r.execution_duration)

/-- `start_times_ms`: the comprehension keeping only non-`None` start times. -/
def startTimesMs (rs : List RunRecord) : List ℤ :=
  rs.filterMap (fun r => r.start_time)

/-- `result_states`: `run.get('result_state', 'UNKNOWN')` for every run. -/
def resultStates (rs : List RunRecord) : List String :=
  rs.map (fun r => r.result_state.getD "UNKNOWN")

/-- One entry of the `Counter` built over `result_states`. -/
def statusCount (rs : List RunRecord) (k : String) : ℕ :=
  (resultStates rs).count k

/-- `success_rate = successful_runs / num_runs * 100 if num_runs > 0 else 0`. -/
def successRate (rs : List RunRecord) : ℚ :=
  if 0 < rs.length then (statusCount rs "SUCCESS" : ℚ) / (rs.length : ℚ) * 100 else 0

/-- `min` of a nonempty Python list, as an `Option`. -/
def listMin : List ℤ → Option ℤ
  | [] => none
  | x :: xs => some (xs.foldl min x)

/-- `max` of a nonempty Python list, as an `Option`. -/
def listMax : List ℤ → Option ℤ
  | [] => none
  | x :: xs => some (xs.foldl max x)

/-- The numeric `duration_stats_ms` block.  `std_dev_sq` is the population
variance; the source stores its square root (`np.std`), a value no claim
inspects and which leaves `ℚ`. -/
structure DurationStats where
  min : ℚ
  max : ℚ
  mean : ℚ
  median : ℚ
  std_dev_sq : ℚ
deriving Repr, DecidableEq

/-- `np.median`: sort, middle element for odd length, mean of the two
middle elements for even length. -/
def medianOf (l : List ℤ) : ℚ :=
  let s := l.mergeSort (fun a b => decide (a ≤ b))
  if l.length % 2 = 1 then ((s.getD (l.length / 2) 0 : ℤ) : ℚ)
  else (((s.getD (l.length / 2 - 1) 0 : ℤ) : ℚ) + ((s.getD (l.length / 2) 0 : ℤ) : ℚ)) / 2

/-- The `if durations_ms:` block of `analyze_run_history`: statistics over
the durations list, or `none` (the empty dict) when it is empty. -/
def durationStatsOf (l : List ℤ) : Option DurationStats :=
  match l with
  | [] => none
  | x :: xs =>
    let n : ℚ := ((x :: xs).length : ℚ)
    let mean : ℚ := (((x :: xs).map (fun v : ℤ => (v : ℚ))).sum) / n
    some
      { min := ((xs.foldl min x : ℤ) : ℚ)
        max := ((xs.foldl max x : ℤ) : ℚ)
        mean := mean
        median := medianOf (x :: xs)
        std_dev_sq := (((x :: xs).map (fun v : ℤ => ((v : ℚ) - mean) ^ 2)).sum) / n }

/-- One entry of a `notable_runs` list (the dict appended by the source). -/
structure NotableRun where
  run_id : Option ℤ
  duration_str : String
  start_time_utc : String
  result_state : Option String
deriving Repr, DecidableEq

/-- Builds the notable-run dict from a raw run (`duration_str` via
`_format_duration`, `start_time_utc` via `_format_timestamp(·, include_tz=False)`). -/
def mkNotable (r : RunRecord) : NotableRun :=
  { run_id := r.run_id
    duration_str := formatDuration (r.execution_duration.map (fun v : ℤ => (v : ℚ)))
    start_time_utc := formatTimestamp (r.start_time.map (fun v : ℤ => (v : ℚ))) false
    result_state := r.result_state }

/-- Sort key `r.get('execution_duration', 0)`. -/
def durKey (r : RunRecord) : ℤ := r.execution_duration.getD 0

/-- Sort key `r.get('start_time', 0)`. -/
def timeKey (r : RunRecord) : ℤ := r.start_time.getD 0

/-- `sorted(job_runs_raw, key=..., reverse=True)` by duration: the stable
sort placing larger keys first (ties keep input order). -/
def sortByDurationDesc (rs : List RunRecord) : List RunRecord :=
  rs.mergeSort (fun a b => decide (durKey b ≤ durKey a))

/-- The `longest` list: first three of the descending-duration sort. -/
def longestRuns (rs : List RunRecord) : List NotableRun :=
  ((sortByDurationDesc rs).take 3).map mkNotable

/-- The `shortest` list: the source reverses the same sorted list in place
and takes the first three again. -/
def shortestRuns (rs : List RunRecord) : List NotableRun :=
  ((sortByDurationDesc rs).reverse.take 3).map mkNotable

/-- `sorted(job_runs_raw, key=lambda r: r.get('start_time', 0), reverse=True)`. -/
def sortByTimeDesc (rs : List RunRecord) : List RunRecord :=
  rs.mergeSort (fun a b => decide (timeKey b ≤ timeKey a))

/-- The failure filter of the recent-failures walk:
`run.get('result_state') != "SUCCESS" and run.get('result_state') != "UNKNOWN"`
(the raw lookup, no `'UNKNOWN'` default). -/
def isFailureCandidate (r : RunRecord) : Bool :=
  r.result_state != some "SUCCESS" && r.result_state != some "UNKNOWN"

/-- The recent-failures collection loop: walk the time-sorted list, append
up to three failure candidates, break on the fourth. -/
def collectFailures : List RunRecord → ℕ → List NotableRun
  | [], _ => []
  | r :: rest, cnt =>
    if isFailureCandidate r then
      if cnt < 3 then mkNotable r :: collectFailures rest (cnt + 1)
      else []
    else collectFailures rest cnt

/-- The `recent_failures` list of the report. -/
def recentFailureRuns (rs : List RunRecord) : List NotableRun :=
  collectFailures (sortByTimeDesc rs) 0

/-- The records the recent-failures loop selects, in order: the first three
failure candidates of the time-descending sort. -/
def recentFailureSel (rs : List RunRecord) : List RunRecord :=
  ((sortByTimeDesc rs).filter isFailureCandidate).take 3

/-- The report built by `analyze_run_history` for a nonempty input.
`duration_stats_ms = none` models the empty stats dict; the
`duration_stats_str` presentation dict (the image of the stats under
`_format_duration`) is not modelled separately. -/
structure RunHistoryReport where
  total_runs_analyzed : ℕ
  period_start_utc : String
  period_end_utc : String
  duration_stats_ms : Option DurationStats
  success_rate_percent : String
  status_counts : String → ℕ
  longest : List NotableRun
  shortest : List NotableRun
  recent_failures : List NotableRun

/-- The body of `analyze_run_history` past the emptiness guard. -/
def buildReport (rs : List RunRecord) : RunHistoryReport :=
  { total_runs_analyzed := rs.length
    period_start_utc :=
      match listMin (startTimesMs rs) with
      | some m => formatTimestamp (some (m : ℚ)) true
      | none => "N/A"
    period_end_utc :=
      match listMax (startTimesMs rs) with
      | some m => formatTimestamp (some (m : ℚ)) true
      | none => "N/A"
    duration_stats_ms := durationStatsOf (durationsMs rs)
    success_rate_percent := fmtTwoDec (successRate rs) ++ "%"
    status_counts := statusCount rs
    longest := longestRuns rs
    shortest := shortestRuns rs
    recent_failures := recentFailureRuns rs }

/-- Embeds `AnalysisEngine.analyze_run_history`.  The argument models the
Python parameter: `none` is an absent (`None`) list; `if not job_runs_raw`
returns `None` for both `None` and `[]`. -/
def analyzeRunHistory : Option (List RunRecord) → Option RunHistoryReport
  | none => none
  | some [] => none
  | some rs => some (buildReport rs)

/-! ## Spark event-log aggregator (`spark_event_log_parser.py`) -/

/-- The `"Shuffle Read Metrics"` sub-dict of a stage's `"Task Metrics"`. -/
structure ShuffleReadMetrics where
  remote_bytes_read : Option ℤ
  local_bytes_read : Option ℤ
deriving Repr, DecidableEq

/-- The `"Shuffle Write Metrics"` sub-dict. -/
structure ShuffleWriteMetrics where
  shuffle_bytes_written : Option ℤ
deriving Repr, DecidableEq

/-- The `"Input Metrics"` sub-dict. -/
structure InputMetrics where
  bytes_read : Option ℤ
deriving Repr, DecidableEq

/-- The `"Output Metrics"` sub-dict. -/
structure OutputMetrics where
  bytes_written : Option ℤ
deriving Repr, DecidableEq

/-- A stage's `"Task Metrics"` dict; each sub-dict is looked up with an
empty-dict default, so `none` models an absent sub-dict. -/
structure TaskMetrics where
  shuffle_read_metrics : Option ShuffleReadMetrics
  shuffle_write_metrics : Option ShuffleWriteMetrics
  input_metrics : Option InputMetrics
  output_metrics : Option OutputMetrics
deriving Repr, DecidableEq

/-- One entry of a stage's `"Accumulables"` list.  `value = none` models an
absent or non-numeric `"Value"` (the source adds only
`isinstance(value, (int, float))` values). -/
structure Accumulable where
  name : Option String
  value : Option ℤ
deriving Repr, DecidableEq

/-- The `"Stage Info"` dict carried by stage events.  `task_metrics = none`
models a `"Task Metrics"` entry that is absent or an empty dict (both falsy
under the source's `if stage_task_metrics:`). -/
structure StageInfo where
  stage_id : Option ℤ
  name : Option String
  submission_time : Option ℤ
  number_of_tasks : Option ℤ
  details : Option String
  completion_time : Option ℤ
  stage_status : Option String
  failure_reason : Option String
  task_metrics : Option TaskMetrics
  accumulables : List Accumulable
deriving Repr, DecidableEq

/-- A `StageInfo` with every field absent (an empty `"Stage Info"` dict). -/
def emptyStageInfo : StageInfo :=
  { stage_id := none, name := none, submission_time := none,
    number_of_tasks := none, details := none, completion_time := none,
    stage_status := none, failure_reason := none, task_metrics := none,
    accumulables := [] }

/-- One decoded log line, dispatched on its `"Event"` field; `other` covers
every unrecognized event type (ignored by `_parse_event`). -/
inductive LogEvent where
  | applicationStart (appName appId : Option String) (timestamp : Option ℤ)
      (sparkUser : Option String)
  | applicationEnd (timestamp : Option ℤ)
  | jobStart (jobId : Option ℤ) (submissionTime : Option ℤ) (stageIds : List ℤ)
  | jobEnd (jobId : Option ℤ) (completionTime : Option ℤ) (jobResult : Option String)
  | stageSubmitted (info : StageInfo)
  | stageCompleted (info : StageInfo)
  | other
deriving Repr, DecidableEq

/-- `parsed_data["application_info"]`. -/
structure ApplicationInfo where
  app_name : Option String
  app_id : Option String
  start_time : Option ℤ
  spark_user : Option String
  end_time : Option ℤ
  duration_ms : Option ℤ
deriving Repr, DecidableEq

/-- The initial empty `application_info` dict. -/
def emptyAppInfo : ApplicationInfo :=
  { app_name := none, app_id := none, start_time := none,
    spark_user := none, end_time := none, duration_ms := none }

/-- One entry of `parsed_data["jobs"]`. -/
structure JobRecord where
  job_id : Option ℤ
  submission_time : Option ℤ
  stage_ids : List ℤ
  status : String
  completion_time : Option ℤ
  result : Option String
  duration_ms : Option ℤ
deriving Repr, DecidableEq

/-- One entry of `parsed_data["stages"]`.  `status = none` models the
`"status"` key being absent (it is only written by `StageCompleted`). -/
structure StageRecord where
  stage_id : Option ℤ
  name : Option String
  submission_time : Option ℤ
  num_tasks : Option ℤ
  details : Option String
  completion_time : Option ℤ
  status : Option String
  failure_reason : Option String
  duration_ms : Option ℤ
deriving Repr, DecidableEq

/-- `parsed_data["summary_metrics"]`. -/
structure SummaryMetrics where
  total_jobs : ℤ
  successful_jobs : ℤ
  failed_jobs : ℤ
  total_stages : ℤ
  total_tasks : ℤ
  aggregate_shuffle_read_bytes : ℤ
  aggregate_shuffle_write_bytes : ℤ
  aggregate_input_bytes : ℤ
  aggregate_output_bytes : ℤ
deriving Repr, DecidableEq

/-- All summary counters start at zero. -/
def zeroMetrics : SummaryMetrics :=
  { total_jobs := 0, successful_jobs := 0, failed_jobs := 0,
    total_stages := 0, total_tasks := 0,
    aggregate_shuffle_read_bytes := 0, aggregate_shuffle_write_bytes := 0,
    aggregate_input_bytes := 0, aggregate_output_bytes := 0 }

/-- A Python dict keyed by (possibly-`None`) ids, as an association list;
insertion replaces an existing binding in place. -/
def alookup {β : Type} (m : List (Option ℤ × β)) (k : Option ℤ) : Option β :=
  match m with
  | [] => none
  | (k', v) :: rest => if k' = k then some v else alookup rest k

/-- Dict write `m[k] = v`: replace the binding if present, else append. -/
def aupdate {β : Type} (m : List (Option ℤ × β)) (k : Option ℤ) (v : β) :
    List (Option ℤ × β) :=
  match m with
  | [] => [(k, v)]
  | (k', v') :: rest =>
    if k' = k then (k, v) :: rest else (k', v') :: aupdate rest k v

/-- The whole `parsed_data` state of one aggregation pass. -/
structure ParserState where
  application_info : ApplicationInfo
  jobs : List (Option ℤ × JobRecord)
  stages : List (Option ℤ × StageRecord)
  summary_metrics : SummaryMetrics
deriving Repr, DecidableEq

/-- The state a fresh `SparkEventLogParser` starts from. -/
def initialState : ParserState :=
  { application_info := emptyAppInfo, jobs := [], stages := [],
    summary_metrics := zeroMetrics }

/-- Python truthiness of an optional number: `None` and `0` are falsy. -/
def truthyInt : Option ℤ → Bool
  | some v => v != 0
  | none => false

/-- Python truthiness of an optional string: `None` and `""` are falsy. -/
def truthyStr : Option String → Bool
  | some s => s != ""
  | none => false

/-- The shuffle-read contribution of a `"Task Metrics"` dict:
remote bytes read plus local bytes read, each defaulting to 0. -/
def tmShuffleRead (tm : TaskMetrics) : ℤ :=
  (tm.shuffle_read_metrics.map (fun m => m.remote_bytes_read.getD 0)).getD 0 +
  (tm.shuffle_read_metrics.map (fun m => m.local_bytes_read.getD 0)).getD 0

/-- The shuffle-write contribution of a `"Task Metrics"` dict. -/
def tmShuffleWrite (tm : TaskMetrics) : ℤ :=
  (tm.shuffle_write_metrics.map (fun m => m.shuffle_bytes_written.getD 0)).getD 0

/-- The input-bytes contribution of a `"Task Metrics"` dict. -/
def tmInput (tm : TaskMetrics) : ℤ :=
  (tm.input_metrics.map (fun m => m.bytes_read.getD 0)).getD 0

/-- The output-bytes contribution of a `"Task Metrics"` dict. -/
def tmOutput (tm : TaskMetrics) : ℤ :=
  (tm.output_metrics.map (fun m => m.bytes_written.getD 0)).getD 0

/-- The accumulables fallback: one named numeric counter folded into the
matching aggregate, unrecognized or non-numeric entries ignored. -/
def applyAccumulable (m : SummaryMetrics) (acc : Accumulable) : SummaryMetrics :=
  match acc.value with
  | none => m
  | some v =>
    if acc.name = some "internal.metrics.shuffle.read.remoteBytesRead" ∨
       acc.name = some "internal.metrics.shuffle.read.localBytesRead" then
      { m with aggregate_shuffle_read_bytes := m.aggregate_shuffle_read_bytes + v }
    else if acc.name = some "internal.metrics.shuffle.write.bytesWritten" then
      { m with aggregate_shuffle_write_bytes := m.aggregate_shuffle_write_bytes + v }
    else if acc.name = some "internal.metrics.input.bytesRead" then
      { m with aggregate_input_bytes := m.aggregate_input_bytes + v }
    else if acc.name = some "internal.metrics.output.bytesWritten" then
      { m with aggregate_output_bytes := m.aggregate_output_bytes + v }
    else m

/-- `successful_jobs`/`failed_jobs` classification at `JobEnd`: only the
exact status `"JobSucceeded"` counts as a success. -/
def bumpJobCounters (st : ParserState) (status : String) : ParserState :=
  if status = "JobSucceeded" then
    { st with summary_metrics :=
      { st.summary_metrics with
        successful_jobs := st.summary_metrics.successful_jobs + 1 } }
  else
    { st with summary_metrics :=
      { st.summary_metrics with
        failed_jobs := st.summary_metrics.failed_jobs + 1 } }

/-- Embeds `SparkEventLogParser._parse_event` as executed under the line
loop's `except` clause: a `TypeError` from `None` arithmetic (subtracting a
missing timestamp) abandons the rest of the event's effects while the
mutations already performed persist. -/
def parseEvent (st : ParserState) (ev : LogEvent) : ParserState :=
  match ev with
  | .applicationStart n i t u =>
      { st with application_info :=
        { app_name := n, app_id := i, start_time := t, spark_user := u,
          end_time := none, duration_ms := none } }
  | .applicationEnd t =>
      let info := { st.application_info with end_time := t }
      if truthyInt info.start_time then
        match t with
        | some ts =>
          { st with application_info :=
            { info with duration_ms := some (ts - info.start_time.getD 0) } }
        | none => { st with application_info := info }
      else { st with application_info := info }
  | .jobStart j sub sids =>
      { st with
        jobs := aupdate st.jobs j
          { job_id := j, submission_time := sub, stage_ids := sids,
            status := "RUNNING", completion_time := none, result := none,
            duration_ms := none },
        summary_metrics :=
          { st.summary_metrics with
            total_jobs := st.summary_metrics.total_jobs + 1 } }
  | .jobEnd j ct res =>
      match alookup st.jobs j with
      | none => st
      | some jr0 =>
        let status := res.getD "UNKNOWN"
        let jr1 := { jr0 with completion_time := ct, result := res, status := status }
        if truthyInt jr1.submission_time then
          match ct with
          | some c =>
            bumpJobCounters
              { st with jobs := aupdate st.jobs j ({ jr1 with duration_ms := some (c - jr1.submission_time.getD 0) }) } status
          | none => { st with jobs := aupdate st.jobs j jr1 }
        else bumpJobCounters { st with jobs := aupdate st.jobs j jr1 } status
  | .stageSubmitted info =>
      { st with
        stages := aupdate st.stages info.stage_id
          { stage_id := info.stage_id, name := info.name,
            submission_time := info.submission_time,
            num_tasks := info.number_of_tasks, details := info.details,
            completion_time := none, status := none, failure_reason := none,
            duration_ms := none },
        summary_metrics :=
          { st.summary_metrics with
            total_stages := st.summary_metrics.total_stages + 1,
            total_tasks := st.summary_metrics.total_tasks +
              info.number_of_tasks.getD 0 } }
  | .stageCompleted info =>
      match alookup st.stages info.stage_id with
      | none => st
      | some sr0 =>
        let sr1 :=
          { sr0 with
            completion_time := info.completion_time,
            status := some (info.stage_status.getD "UNKNOWN"),
            failure_reason :=
              if truthyStr info.failure_reason then info.failure_reason
              else sr0.failure_reason }
        let sr2 :=
          if truthyInt sr1.submission_time && truthyInt info.completion_time then
            { sr1 with duration_ms := some (info.completion_time.getD 0 - sr1.submission_time.getD 0) }
          else sr1
        let m := st.summary_metrics
        let m' :=
          match info.task_metrics with
          | some tm =>
            { m with
              aggregate_shuffle_read_bytes :=
                m.aggregate_shuffle_read_bytes + tmShuffleRead tm,
              aggregate_shuffle_write_bytes :=
                m.aggregate_shuffle_write_bytes + tmShuffleWrite tm,
              aggregate_input_bytes := m.aggregate_input_bytes + tmInput tm,
              aggregate_output_bytes := m.aggregate_output_bytes + tmOutput tm }
          | none => info.accumulables.foldl applyAccumulable m
        { st with stages := aupdate st.stages info.stage_id sr2,
                  summary_metrics := m' }
  | .other => st

/-- One line of `parse_log_file`'s loop: a line that fails JSON decoding
(`none`) is skipped with a warning; a decoded event is dispatched. -/
def parseLine (st : ParserState) (line : Option LogEvent) : ParserState :=
  match line with
  | none => st
  | some ev => parseEvent st ev

/-- Embeds `parse_log_file` over an already-read list of lines, each either
a decoded event or a JSON-decode failure. -/
def parseLogLines (lines : List (Option LogEvent)) : ParserState :=
  lines.foldl parseLine initialState

/-- The events of a line list, in order (decode failures dropped). -/
def eventsOf (lines : List (Option LogEvent)) : List LogEvent :=
  lines.filterMap id

/-! ## Helper lemmas -/

/-- The `"SUCCESS"` histogram entry counts exactly the records whose
`result_state` is literally `"SUCCESS"` (the `'UNKNOWN'` default never
collides with it). -/
theorem statusCount_success_eq_countP (rs : List RunRecord) :
    statusCount rs "SUCCESS" =
      rs.countP (fun r => r.result_state = some "SUCCESS") := by
  induction rs with
  | nil => rfl
  | cons r rest ih =>
    rcases hr : r.result_state with _ | s <;>
      simp [statusCount, resultStates, List.count_cons, List.countP_cons, hr,
        statusCount, resultStates] at ih ⊢ <;> omega

/-! ## Claim theorems -/

/-- Claim C3: `_format_duration` returns `"N/A"` on `None`, the sentinel
`"Invalid duration"` on every negative millisecond value, and `"0.00s"`
on input `0`. -/
theorem formatDuration_sentinels :
    formatDuration none = "N/A" ∧
    (∀ ms : ℤ, ms < 0 → formatDuration (some (ms : ℚ)) = "Invalid duration") ∧
    formatDuration (some 0) = "0.00s" := by
  refine ⟨rfl, ?_, by norm_num [formatDuration, fmtTwoDec, round_eq]; rfl⟩
  intro ms h
  have hneg : ((ms : ℚ)) / 1000 < 0 :=
    div_neg_of_neg_of_pos (by exact_mod_cast h) (by norm_num)
  simp only [formatDuration, if_pos hneg]

/-- Witness for C3 at the concrete negative input `-1`. -/
theorem formatDuration_sentinels_witness :
    formatDuration (some ((-1 : ℤ) : ℚ)) = "Invalid duration" :=
  formatDuration_sentinels.2.1 (-1) (by norm_num)

/-- Claim C1: `analyze_run_history` yields `None` for an absent or empty
run list, and for every nonempty list the reported success rate is
`100 × (#records with result_state "SUCCESS") / (#records)` rendered to two
decimals, the denominator being the full record count. -/
theorem analyze_empty_and_success_rate :
    analyzeRunHistory none = none ∧ analyzeRunHistory (some []) = none ∧
    ∀ rs : List RunRecord, rs ≠ [] →
      (analyzeRunHistory (some rs)).map RunHistoryReport.success_rate_percent =
        some (fmtTwoDec (100 *
          (rs.countP (fun r => r.result_state = some "SUCCESS") : ℚ) /
          (rs.length : ℚ)) ++ "%") := by
  refine ⟨rfl, rfl, ?_⟩
  intro rs h
  match rs, h with
  | r :: rest, _ =>
    have hrate : successRate (r :: rest) = 100 *
        ((r :: rest).countP (fun x => x.result_state = some "SUCCESS") : ℚ) /
        ((r :: rest).length : ℚ) := by
      rw [successRate, if_pos (by simp), ← statusCount_success_eq_countP]
      ring
    simp [analyzeRunHistory, buildReport, hrate]

/-- Witness for C1 at a concrete single-record list. -/
theorem analyze_success_rate_witness :
    (analyzeRunHistory (some [(⟨some 1, some 0, some 5, some "SUCCESS"⟩ : RunRecord)])).map
      RunHistoryReport.success_rate_percent = some "100.00%" := by
  have h := analyze_empty_and_success_rate.2.2
    [(⟨some 1, some 0, some 5, some "SUCCESS"⟩ : RunRecord)] (by simp)
  rw [h]
  congr 1
  · norm_num [fmtTwoDec, round_eq, List.countP_cons]
    rfl

/-- Claim C9: a record with an absent execution duration is excluded from
the duration-statistics block, yet still counted in the total, the
success-rate denominator and the result-state histogram; and when no
record has a duration the stats block is empty, not zero-filled. -/
theorem duration_stats_exclusion :
    (∀ (l₁ l₂ : List RunRecord) (r : RunRecord), r.execution_duration = none →
      (buildReport (l₁ ++ r :: l₂)).duration_stats_ms =
          durationStatsOf (durationsMs (l₁ ++ l₂)) ∧
      (buildReport (l₁ ++ r :: l₂)).total_runs_analyzed = (l₁ ++ l₂).length + 1 ∧
      (buildReport (l₁ ++ r :: l₂)).success_rate_percent =
          fmtTwoDec (100 *
            ((l₁ ++ r :: l₂).countP (fun x => x.result_state = some "SUCCESS") : ℚ) /
            ((l₁ ++ l₂).length + 1 : ℚ)) ++ "%" ∧
      (buildReport (l₁ ++ r :: l₂)).status_counts (r.result_state.getD "UNKNOWN") =
          statusCount (l₁ ++ l₂) (r.result_state.getD "UNKNOWN") + 1) ∧
    ∀ rs : List RunRecord, (∀ x ∈ rs, x.execution_duration = none) →
      (buildReport rs).duration_stats_ms = none := by
  constructor
  · intro l₁ l₂ r h
    refine ⟨?_, ?_, ?_, ?_⟩
    · simp [buildReport, durationsMs, List.filterMap_append, h]
    · simp [buildReport]
      omega
    · have hlen : ((l₁ ++ r :: l₂).length : ℚ) = ((l₁ ++ l₂).length + 1 : ℚ) := by
        push_cast [List.length_append, List.length_cons]
        ring
      have hrate : successRate (l₁ ++ r :: l₂) = 100 *
          ((l₁ ++ r :: l₂).countP (fun x => x.result_state = some "SUCCESS") : ℚ) /
          ((l₁ ++ l₂).length + 1 : ℚ) := by
        rw [successRate, if_pos (by simp), ← statusCount_success_eq_countP, hlen]
        ring
      simp [buildReport, hrate]
    · simp [buildReport, statusCount, resultStates, List.count_append,
        List.count_cons]
      omega
  · intro rs h
    have : durationsMs rs = [] := by
      simp only [durationsMs, List.filterMap_eq_nil_iff]
      exact h
    simp [buildReport, this, durationStatsOf]

/-- Witness for C9 at a concrete two-record list. -/
theorem duration_stats_exclusion_witness :
    (buildReport [(⟨some 1, some 10, some 7, some "FAILED"⟩ : RunRecord),
        (⟨some 5, some 0, none, some "SUCCESS"⟩ : RunRecord)]).duration_stats_ms =
      durationStatsOf (durationsMs [(⟨some 1, some 10, some 7, some "FAILED"⟩ : RunRecord)]) :=
  ((duration_stats_exclusion.1
    [(⟨some 1, some 10, some 7, some "FAILED"⟩ : RunRecord)] []
    (⟨some 5, some 0, none, some "SUCCESS"⟩ : RunRecord) rfl).1)

/-- Claim C10: a record whose `result_state` key is absent is tallied under
`"UNKNOWN"` in the histogram (the defaulted lookup), yet the recent-failures
filter uses the raw lookup, under which the absent value differs from both
`"SUCCESS"` and `"UNKNOWN"`, so the record is a failure candidate and can
appear in `recent_failures`. -/
theorem absent_result_state_failure_candidate :
    (∀ (rs : List RunRecord) (r : RunRecord), r ∈ rs → r.result_state = none →
      1 ≤ statusCount rs "UNKNOWN" ∧ isFailureCandidate r = true) ∧
    recentFailureRuns [(⟨some 5, some 0, none, none⟩ : RunRecord)] =
      [mkNotable (⟨some 5, some 0, none, none⟩ : RunRecord)] := by
  constructor
  · intro rs r hmem hnone
    constructor
    · have : "UNKNOWN" ∈ resultStates rs := by
        simp only [resultStates, List.mem_map]
        exact ⟨r, hmem, by simp [hnone]⟩
      simpa [statusCount] using List.count_pos_iff.mpr this
    · simp [isFailureCandidate, hnone]
  · simp [recentFailureRuns, sortByTimeDesc, List.mergeSort, collectFailures,
      isFailureCandidate]

/-- Witness for C10 at a concrete singleton list. -/
theorem absent_result_state_failure_candidate_witness :
    1 ≤ statusCount [(⟨some 5, some 0, none, none⟩ : RunRecord)] "UNKNOWN" ∧
    isFailureCandidate (⟨some 5, some 0, none, none⟩ : RunRecord) = true :=
  absent_result_state_failure_candidate.1 _ _ (by simp) rfl

/-- The collection loop selects exactly the first `3 - cnt` failure
candidates, in order. -/
theorem collectFailures_eq (l : List RunRecord) :
    ∀ cnt : ℕ, collectFailures l cnt =
      ((l.filter isFailureCandidate).take (3 - cnt)).map mkNotable := by
  induction l with
  | nil => intro cnt; simp [collectFailures]
  | cons r rest ih =>
    intro cnt
    by_cases hp : isFailureCandidate r
    · by_cases hc : cnt < 3
      · have h3 : 3 - cnt = (3 - (cnt + 1)) + 1 := by omega
        simp [collectFailures, hp, hc, List.filter_cons, h3, ih (cnt + 1)]
      · have h3 : 3 - cnt = 0 := by omega
        simp [collectFailures, hp, hc, List.filter_cons, h3]
    · simp [collectFailures, hp, List.filter_cons, ih cnt]

/-- The time-descending sort is pairwise non-increasing on the
`start_time` key (missing start times keyed 0). -/
theorem sortByTimeDesc_pairwise (rs : List RunRecord) :
    (sortByTimeDesc rs).Pairwise (fun a b => timeKey b ≤ timeKey a) := by
  have h := @List.sorted_mergeSort RunRecord
    (fun a b => decide (timeKey b ≤ timeKey a))
    (fun a b c hab hbc => by
      simp only [decide_eq_true_eq] at *
      exact le_trans hbc hab)
    (fun a b => by
      simp only [Bool.or_eq_true, decide_eq_true_eq]
      exact le_total (timeKey b) (timeKey a))
    rs
  exact h.imp (by simp)

/-- Claim C6: `recent_failures` has at most three entries, is the image of
the first three failure candidates of the time-descending stable sort, is
ordered by the start-time key descending, and never selects a record whose
`result_state` is `"SUCCESS"` or `"UNKNOWN"`. -/
theorem recent_failures_spec :
    ∀ rs : List RunRecord,
      (recentFailureRuns rs).length ≤ 3 ∧
      recentFailureRuns rs = (recentFailureSel rs).map mkNotable ∧
      (recentFailureSel rs).Chain' (fun a b => timeKey b ≤ timeKey a) ∧
      ∀ r ∈ recentFailureSel rs,
        r.result_state ≠ some "SUCCESS" ∧ r.result_state ≠ some "UNKNOWN" := by
  intro rs
  have heq : recentFailureRuns rs = (recentFailureSel rs).map mkNotable := by
    rw [recentFailureRuns, recentFailureSel, collectFailures_eq _ 0]
  refine ⟨?_, heq, ?_, ?_⟩
  · rw [heq, List.length_map, recentFailureSel, List.length_take]
    exact min_le_left _ _
  · have hsub : (recentFailureSel rs).Sublist (sortByTimeDesc rs) :=
      (List.take_sublist _ _).trans (List.filter_sublist _)
    exact (List.Pairwise.sublist hsub (sortByTimeDesc_pairwise rs)).chain'
  · intro r hr
    have hmem : r ∈ (sortByTimeDesc rs).filter isFailureCandidate :=
      List.mem_of_mem_take hr
    have hp := (List.mem_filter.mp hmem).2
    simp only [isFailureCandidate, Bool.and_eq_true, bne_iff_ne] at hp
    exact hp

/-- Witness for C6 at a concrete singleton list. -/
theorem recent_failures_spec_witness :
    ((⟨some 1, some 5, none, some "FAILED"⟩ : RunRecord).result_state ≠ some "SUCCESS") ∧
    ((⟨some 1, some 5, none, some "FAILED"⟩ : RunRecord).result_state ≠ some "UNKNOWN") :=
  (recent_failures_spec [(⟨some 1, some 5, none, some "FAILED"⟩ : RunRecord)]).2.2.2
    (⟨some 1, some 5, none, some "FAILED"⟩ : RunRecord)
    (by simp [recentFailureSel, sortByTimeDesc, List.mergeSort, isFailureCandidate])

/-- Six pairwise-distinct runs with strictly decreasing durations: the
longest and shortest rankings are disjoint although six records were
analyzed. -/
def rs6 : List RunRecord :=
  [⟨some 1, some 10, some 60, some "SUCCESS"⟩,
   ⟨some 2, some 20, some 50, some "SUCCESS"⟩,
   ⟨some 3, some 30, some 40, some "SUCCESS"⟩,
   ⟨some 4, some 40, some 30, some "SUCCESS"⟩,
   ⟨some 5, some 50, some 20, some "SUCCESS"⟩,
   ⟨some 6, some 60, some 10, some "SUCCESS"⟩]

/-- Claim C7, counterexample: the claim asserts the longest and shortest
lists are disjoint-or-equal only when at most 3 records were given, yet on
the six-record input `rs6` the two lists are disjoint. -/
theorem notable_rankings_disjoint_counterexample :
    List.Disjoint (longestRuns rs6) (shortestRuns rs6) ∧ ¬ rs6.length ≤ 3 := by
  constructor
  · have hsort : sortByDurationDesc rs6 = rs6 := by
      simp [sortByDurationDesc, rs6, List.mergeSort, durKey]
    intro e he
    rw [longestRuns, hsort] at he
    rw [shortestRuns, hsort]
    simp only [rs6, List.take, List.map, List.mem_cons, List.not_mem_nil,
      or_false, List.reverse_cons, List.reverse_nil, List.nil_append,
      List.cons_append, List.mem_singleton, mkNotable] at he ⊢
    rcases he with h | h | h <;> subst h <;>
      simp [NotableRun.mk.injEq]
  · simp [rs6]

/-- Claim C7, amended: each ranking holds at most three entries; and for
inputs whose records carry pairwise-distinct run ids, the two rankings are
equal as sets only when at most three records were analyzed (disjointness,
by contrast, occurs precisely on large inputs and implies no bound). -/
theorem notable_rankings_bounds_and_equality :
    ∀ rs : List RunRecord,
      (longestRuns rs).length ≤ 3 ∧ (shortestRuns rs).length ≤ 3 ∧
      ((rs.map (fun r => r.run_id)).Nodup →
        (∀ e, e ∈ longestRuns rs ↔ e ∈ shortestRuns rs) → rs.length ≤ 3) := by
  intro rs
  refine ⟨?_, ?_, ?_⟩
  · rw [longestRuns, List.length_map, List.length_take]
    exact min_le_left _ _
  · rw [shortestRuns, List.length_map, List.length_take]
    exact min_le_left _ _
  intro hnd hiff
  by_contra hlen
  push_neg at hlen
  have hperm : (sortByDurationDesc rs).Perm rs := List.mergeSort_perm rs _
  have hlens : (sortByDurationDesc rs).length = rs.length := hperm.length_eq
  have hndmap : ((sortByDurationDesc rs).map (fun r => r.run_id)).Nodup :=
    ((hperm.map _).nodup_iff).mpr hnd
  have hnds : (sortByDurationDesc rs).Nodup := List.Nodup.of_map _ hndmap
  obtain ⟨a, t, hst⟩ : ∃ a t, sortByDurationDesc rs = a :: t := by
    rcases hh : sortByDurationDesc rs with _ | ⟨a, t⟩
    · rw [hh] at hlens
      simp at hlens
      omega
    · exact ⟨a, t, rfl⟩
  have hmemL : mkNotable a ∈ longestRuns rs := by
    rw [longestRuns, hst]
    exact List.mem_map_of_mem _ (by simp [List.take_succ_cons])
  have hmemS := (hiff _).mp hmemL
  rw [shortestRuns] at hmemS
  obtain ⟨b, hb, hmk⟩ := List.mem_map.mp hmemS
  rw [List.take_reverse, List.mem_reverse] at hb
  have hid : b.run_id = a.run_id := by
    have := congrArg NotableRun.run_id hmk
    simpa [mkNotable] using this
  have hba : b = a :=
    List.inj_on_of_nodup_map hndmap (List.mem_of_mem_drop hb)
      (by rw [hst]; exact List.mem_cons_self a t) hid
  rw [hba, hst] at hb
  have h4 : 4 ≤ t.length + 1 := by
    rw [hst] at hlens
    simp at hlens
    omega
  have hdrop : (a :: t).length - 3 = (t.length - 3) + 1 := by
    simp
    omega
  rw [hdrop, List.drop_succ_cons] at hb
  have hat : a ∈ t := List.mem_of_mem_drop hb
  rw [hst, List.nodup_cons] at hnds
  exact hnds.1 hat

/-- Witness for C7's amended theorem at a concrete three-record input. -/
theorem notable_rankings_witness :
    [(⟨some 1, some 10, some 60, some "A"⟩ : RunRecord),
     (⟨some 2, some 20, some 50, some "B"⟩ : RunRecord)].length ≤ 3 :=
  (notable_rankings_bounds_and_equality
    [(⟨some 1, some 10, some 60, some "A"⟩ : RunRecord),
     (⟨some 2, some 20, some 50, some "B"⟩ : RunRecord)]).2.2
    (by simp)
    (by
      intro e
      have hsort : sortByDurationDesc
          [(⟨some 1, some 10, some 60, some "A"⟩ : RunRecord),
           (⟨some 2, some 20, some 50, some "B"⟩ : RunRecord)] =
          [(⟨some 1, some 10, some 60, some "A"⟩ : RunRecord),
           (⟨some 2, some 20, some 50, some "B"⟩ : RunRecord)] := by
        simp [sortByDurationDesc, List.mergeSort, durKey]
      simp only [longestRuns, shortestRuns, hsort]
      constructor <;> intro h <;> simp at h ⊢ <;> tauto)

/-- Claim C5: a line that fails JSON decoding is skipped without aborting
the pass: stage 9 submitted with 4 tasks, a garbage line, then stage 9
completed still yields `total_tasks = 4` and a stage record with its
completion recorded. -/
theorem garbage_line_skipped_scenario :
    (parseLogLines
      [some (.stageSubmitted { emptyStageInfo with stage_id := some 9, number_of_tasks := some 4, submission_time := some 100 }),
       none,
       some (.stageCompleted { emptyStageInfo with stage_id := some 9, completion_time := some 200 })]).summary_metrics.total_tasks = 4 ∧
    (alookup (parseLogLines
      [some (.stageSubmitted { emptyStageInfo with stage_id := some 9, number_of_tasks := some 4, submission_time := some 100 }),
       none,
       some (.stageCompleted { emptyStageInfo with stage_id := some 9, completion_time := some 200 })]).stages (some 9)).map
      (fun s => (s.status, s.completion_time)) =
      some (some "UNKNOWN", some 200) :=
  ⟨rfl, rfl⟩

/-- Claim C4, counterexample: a `JobEnd` whose job id is in the map but
which lacks a `"Completion Time"` hits `None - submission_time`
(a `TypeError` swallowed by the line loop), so neither counter is
incremented, against the claim that exactly one always is. -/
theorem jobEnd_counters_skipped_counterexample :
    (alookup (parseLogLines [some (.jobStart (some 1) (some 1000) [1])]).jobs
      (some 1)).isSome = true ∧
    (parseLogLines [some (.jobStart (some 1) (some 1000) [1]),
      some (.jobEnd (some 1) none (some "JobSucceeded"))]).summary_metrics.successful_jobs = 0 ∧
    (parseLogLines [some (.jobStart (some 1) (some 1000) [1]),
      some (.jobEnd (some 1) none (some "JobSucceeded"))]).summary_metrics.failed_jobs = 0 :=
  ⟨rfl, rfl, rfl⟩

/-- Claim C4, amended: for every `JobEnd` whose job id is in the map and
which carries a completion time, exactly one of the two counters is
incremented, by the exact-`"JobSucceeded"` rule; and the concrete
start/end pair (1000, 1500, JobSucceeded) yields `duration_ms = 500` and
`successful_jobs = 1`. -/
theorem jobEnd_counter_classification :
    (∀ (st : ParserState) (j : Option ℤ) (c : ℤ) (res : Option String),
      (alookup st.jobs j).isSome = true →
      ((res = some "JobSucceeded" →
        (parseEvent st (.jobEnd j (some c) res)).summary_metrics.successful_jobs =
          st.summary_metrics.successful_jobs + 1 ∧
        (parseEvent st (.jobEnd j (some c) res)).summary_metrics.failed_jobs =
          st.summary_metrics.failed_jobs) ∧
      (res ≠ some "JobSucceeded" →
        (parseEvent st (.jobEnd j (some c) res)).summary_metrics.failed_jobs =
          st.summary_metrics.failed_jobs + 1 ∧
        (parseEvent st (.jobEnd j (some c) res)).summary_metrics.successful_jobs =
          st.summary_metrics.successful_jobs))) ∧
    ((alookup (parseLogLines [some (.jobStart (some 1) (some 1000) [1]),
        some (.jobEnd (some 1) (some 1500) (some "JobSucceeded"))]).jobs
        (some 1)).map JobRecord.duration_ms = some (some 500) ∧
      (parseLogLines [some (.jobStart (some 1) (some 1000) [1]),
        some (.jobEnd (some 1) (some 1500)
          (some "JobSucceeded"))]).summary_metrics.successful_jobs = 1) := by
  refine ⟨?_, rfl, rfl⟩
  intro st j c res hj
  obtain ⟨jr0, halo⟩ := Option.isSome_iff_exists.mp hj
  have hstat : ∀ st' : ParserState,
      (res = some "JobSucceeded" →
        (bumpJobCounters st' (res.getD "UNKNOWN")).summary_metrics.successful_jobs =
          st'.summary_metrics.successful_jobs + 1 ∧
        (bumpJobCounters st' (res.getD "UNKNOWN")).summary_metrics.failed_jobs =
          st'.summary_metrics.failed_jobs) ∧
      (res ≠ some "JobSucceeded" →
        (bumpJobCounters st' (res.getD "UNKNOWN")).summary_metrics.failed_jobs =
          st'.summary_metrics.failed_jobs + 1 ∧
        (bumpJobCounters st' (res.getD "UNKNOWN")).summary_metrics.successful_jobs =
          st'.summary_metrics.successful_jobs) := by
    intro st'
    constructor
    · rintro rfl
      simp [bumpJobCounters]
    · intro hne
      have : res.getD "UNKNOWN" ≠ "JobSucceeded" := by
        cases res with
        | none => simp
        | some s =>
          simp only [Option.getD_some]
          intro hcon
          exact hne (by rw [hcon])
      simp [bumpJobCounters, this]
  simp only [parseEvent, halo]
  cases hsub : jr0.submission_time with
  | none =>
    simp only [hsub, truthyInt, Bool.false_eq_true, if_false]
    exact hstat _
  | some s =>
    by_cases hs0 : s = 0
    · simp only [hsub, hs0, truthyInt, bne_self_eq_false, Bool.false_eq_true, if_false]
      exact hstat _
    · have : truthyInt (some s) = true := by simp [truthyInt, hs0]
      simp only [hsub, this, if_true]
      exact hstat _

/-- Witness for C4's amended theorem at the concrete job-1 state. -/
theorem jobEnd_counter_classification_witness :
    (parseEvent (parseLogLines [some (.jobStart (some 1) (some 1000) [1])])
        (.jobEnd (some 1) (some 1500) (some "JobSucceeded"))).summary_metrics.successful_jobs =
      (parseLogLines [some (.jobStart (some 1) (some 1000) [1])]).summary_metrics.successful_jobs + 1 ∧
    (parseEvent (parseLogLines [some (.jobStart (some 1) (some 1000) [1])])
        (.jobEnd (some 1) (some 1500) (some "JobSucceeded"))).summary_metrics.failed_jobs =
      (parseLogLines [some (.jobStart (some 1) (some 1000) [1])]).summary_metrics.failed_jobs :=
  (jobEnd_counter_classification.1
    (parseLogLines [some (.jobStart (some 1) (some 1000) [1])])
    (some 1) 1500 (some "JobSucceeded") rfl).1 rfl

/-! ## Monotonicity of the aggregate counters (C2) -/

/-- Pointwise order on the nine aggregate counters. -/
def metricsLE (a b : SummaryMetrics) : Prop :=
  a.total_jobs ≤ b.total_jobs ∧ a.successful_jobs ≤ b.successful_jobs ∧
  a.failed_jobs ≤ b.failed_jobs ∧ a.total_stages ≤ b.total_stages ∧
  a.total_tasks ≤ b.total_tasks ∧
  a.aggregate_shuffle_read_bytes ≤ b.aggregate_shuffle_read_bytes ∧
  a.aggregate_shuffle_write_bytes ≤ b.aggregate_shuffle_write_bytes ∧
  a.aggregate_input_bytes ≤ b.aggregate_input_bytes ∧
  a.aggregate_output_bytes ≤ b.aggregate_output_bytes

theorem metricsLE_refl (a : SummaryMetrics) : metricsLE a a := by
  simp [metricsLE]

theorem metricsLE_trans {a b c : SummaryMetrics} (h₁ : metricsLE a b)
    (h₂ : metricsLE b c) : metricsLE a c := by
  simp only [metricsLE] at *
  omega

/-- All numeric contributions an event can add to the aggregates are
non-negative (the condition the claim leaves implicit: real Spark logs
carry non-negative task counts and byte counters, but the code never
checks this). -/
def eventNonneg : LogEvent → Prop
  | .stageSubmitted info => 0 ≤ info.number_of_tasks.getD 0
  | .stageCompleted info =>
    (∀ tm, info.task_metrics = some tm →
      0 ≤ tmShuffleRead tm ∧ 0 ≤ tmShuffleWrite tm ∧
      0 ≤ tmInput tm ∧ 0 ≤ tmOutput tm) ∧
    ∀ acc ∈ info.accumulables, ∀ v, acc.value = some v → 0 ≤ v
  | _ => True

theorem applyAccumulable_le (m : SummaryMetrics) (acc : Accumulable)
    (h : ∀ v, acc.value = some v → 0 ≤ v) :
    metricsLE m (applyAccumulable m acc) := by
  unfold applyAccumulable
  cases hv : acc.value with
  | none => exact metricsLE_refl m
  | some v =>
    have h0 := h v hv
    split_ifs <;> simp [metricsLE] <;> omega

theorem foldl_applyAccumulable_le (l : List Accumulable) :
    ∀ m, (∀ acc ∈ l, ∀ v, acc.value = some v → 0 ≤ v) →
      metricsLE m (l.foldl applyAccumulable m) := by
  induction l with
  | nil => intro m _; exact metricsLE_refl m
  | cons a rest ih =>
    intro m h
    simp only [List.foldl_cons]
    exact metricsLE_trans
      (applyAccumulable_le m a (h a (by simp)))
      (ih _ (fun acc hm => h acc (by simp [hm])))

theorem bumpJobCounters_le (st : ParserState) (status : String) :
    metricsLE st.summary_metrics (bumpJobCounters st status).summary_metrics := by
  unfold bumpJobCounters
  split_ifs <;> simp [metricsLE]

/-- One event never decreases any aggregate counter, provided its numeric
contributions are non-negative. -/
theorem parseEvent_metrics_mono (st : ParserState) (ev : LogEvent)
    (h : eventNonneg ev) :
    metricsLE st.summary_metrics (parseEvent st ev).summary_metrics := by
  cases ev with
  | applicationStart n i t u => exact metricsLE_refl _
  | applicationEnd t =>
    have hjobs : (parseEvent st (.applicationEnd t)).summary_metrics =
        st.summary_metrics := by
      simp only [parseEvent]
      split
      · split <;> rfl
      · rfl
    rw [hjobs]
    exact metricsLE_refl _
  | jobStart j sub sids =>
    simp only [parseEvent, metricsLE]
    omega
  | jobEnd j ct res =>
    simp only [parseEvent]
    split
    · exact metricsLE_refl _
    · split
      · split
        · exact bumpJobCounters_le _ _
        · exact metricsLE_refl _
      · exact bumpJobCounters_le _ _
  | stageSubmitted info =>
    have h0 : 0 ≤ info.number_of_tasks.getD 0 := h
    simp only [parseEvent, metricsLE]
    refine ⟨by omega, by omega, by omega, by omega, by omega, by omega, by omega,
      by omega, by omega⟩
  | stageCompleted info =>
    simp only [parseEvent]
    split
    · exact metricsLE_refl _
    · cases htm : info.task_metrics with
      | some tm =>
        obtain ⟨h1, h2, h3, h4⟩ := h.1 tm htm
        simp only [metricsLE]
        refine ⟨le_refl _, le_refl _, le_refl _, le_refl _, le_refl _,
          by omega, by omega, by omega, by omega⟩
      | none =>
        exact foldl_applyAccumulable_le _ _ h.2
  | other => exact metricsLE_refl _

/-- Claim C2, counterexample: the claim quantifies over every event
sequence, but a `StageSubmitted` declaring a negative task count strictly
decreases `total_tasks` (the code adds the value unchecked). -/
theorem aggregate_counters_not_monotone_counterexample :
    (parseEvent initialState (.stageSubmitted { emptyStageInfo with
      stage_id := some 7, number_of_tasks := some (-1) })).summary_metrics.total_tasks <
      initialState.summary_metrics.total_tasks := by
  decide

/-- Claim C2, amended: over any line sequence whose events carry only
non-negative task counts and metric values, every aggregate counter is
monotonically non-decreasing across each processed line. -/
theorem aggregate_counters_monotone_of_nonneg :
    ∀ lines : List (Option LogEvent),
      (∀ l ∈ lines, ∀ e, l = some e → eventNonneg e) →
      ∀ i : ℕ,
        metricsLE (parseLogLines (lines.take i)).summary_metrics
          (parseLogLines (lines.take (i + 1))).summary_metrics := by
  intro lines h i
  by_cases hi : i < lines.length
  · have hget : lines[i]? = some lines[i] := List.getElem?_eq_getElem hi
    rw [List.take_succ, hget]
    simp only [Option.toList]
    rw [parseLogLines, parseLogLines, List.foldl_append]
    cases hl : lines[i] with
    | none =>
      simp only [List.foldl_cons, List.foldl_nil, parseLine]
      exact metricsLE_refl _
    | some e =>
      have he := h lines[i] (lines.getElem_mem hi) e hl
      simp only [List.foldl_cons, List.foldl_nil, parseLine]
      exact parseEvent_metrics_mono _ e he
  · rw [List.take_of_length_le (by omega), List.take_of_length_le (by omega)]
    exact metricsLE_refl _

/-- Witness for C2's amended theorem at a concrete one-line log. -/
theorem aggregate_counters_monotone_witness :
    metricsLE
      (parseLogLines ([some (.jobStart (some 1) (some 1000) [1])].take 0)).summary_metrics
      (parseLogLines ([some (.jobStart (some 1) (some 1000) [1])].take 1)).summary_metrics :=
  aggregate_counters_monotone_of_nonneg _
    (by
      intro l hl e he
      subst he
      simp only [List.mem_singleton, Option.some.injEq] at hl
      subst hl
      trivial) 0

/-! ## Duration bookkeeping (C8) -/

theorem alookup_aupdate_self {β : Type} (m : List (Option ℤ × β)) (k : Option ℤ)
    (v : β) : alookup (aupdate m k v) k = some v := by
  induction m with
  | nil => simp [aupdate, alookup]
  | cons p rest ih =>
    obtain ⟨k₀, v₀⟩ := p
    by_cases h0 : k₀ = k
    · simp [aupdate, h0, alookup]
    · simp [aupdate, h0, alookup, ih]

theorem alookup_aupdate_ne {β : Type} (m : List (Option ℤ × β)) (k k' : Option ℤ)
    (v : β) (h : k ≠ k') : alookup (aupdate m k v) k' = alookup m k' := by
  induction m with
  | nil => simp [aupdate, alookup, h]
  | cons p rest ih =>
    obtain ⟨k₀, v₀⟩ := p
    by_cases h0 : k₀ = k
    · subst h0
      simp [aupdate, alookup, h]
    · simp [aupdate, h0, alookup, ih]

/-- Recognizes a `JobEnd` event addressed to job id `k`. -/
def isJobEndFor (k : Option ℤ) : LogEvent → Bool
  | .jobEnd j _ _ => decide (j = k)
  | _ => false

/-- Recognizes a `StageCompleted` event addressed to stage id `k`. -/
def isStageCompletedFor (k : Option ℤ) : LogEvent → Bool
  | .stageCompleted info => decide (info.stage_id = k)
  | _ => false

/-- Well-formedness of a job record's derived duration: present only with a
present (and truthy) submission time and a present completion time, and
equal to completion − submission exactly (negative differences included). -/
def jobDurOk (jr : JobRecord) : Prop :=
  ∀ d, jr.duration_ms = some d →
    ∃ s c, jr.submission_time = some s ∧ s ≠ 0 ∧
      jr.completion_time = some c ∧ d = c - s

/-- Well-formedness of a stage record's derived duration (the stage branch
additionally requires a truthy completion time before computing). -/
def stageDurOk (sr : StageRecord) : Prop :=
  ∀ d, sr.duration_ms = some d →
    ∃ s c, sr.submission_time = some s ∧ s ≠ 0 ∧
      sr.completion_time = some c ∧ c ≠ 0 ∧ d = c - s

/-- Induction invariant: every stored record is duration-consistent, and a
record that already carries a duration receives no further end/completion
event in the remaining event list. -/
def stateOk (st : ParserState) (evs : List LogEvent) : Prop :=
  (∀ k jr, alookup st.jobs k = some jr →
    jobDurOk jr ∧ (jr.duration_ms.isSome = true → evs.countP (isJobEndFor k) = 0)) ∧
  (∀ k sr, alookup st.stages k = some sr →
    stageDurOk sr ∧ (sr.duration_ms.isSome = true → evs.countP (isStageCompletedFor k) = 0))

theorem bumpJobCounters_jobs (st : ParserState) (status : String) :
    (bumpJobCounters st status).jobs = st.jobs := by
  unfold bumpJobCounters
  split_ifs <;> rfl

theorem bumpJobCounters_stages (st : ParserState) (status : String) :
    (bumpJobCounters st status).stages = st.stages := by
  unfold bumpJobCounters
  split_ifs <;> rfl

/-- One step of the invariant. -/
theorem stateOk_step (st : ParserState) (e : LogEvent) (rest : List LogEvent)
    (hj1 : ∀ k, (e :: rest).countP (isJobEndFor k) ≤ 1)
    (hs1 : ∀ k, (e :: rest).countP (isStageCompletedFor k) ≤ 1)
    (h : stateOk st (e :: rest)) : stateOk (parseEvent st e) rest := by
  obtain ⟨hJ, hS⟩ := h
  have tailJ : ∀ k (jr : JobRecord), alookup st.jobs k = some jr →
      jr.duration_ms.isSome = true → rest.countP (isJobEndFor k) = 0 := by
    intro k jr hl hd
    have := (hJ k jr hl).2 hd
    rw [List.countP_cons] at this
    omega
  have tailS : ∀ k (sr : StageRecord), alookup st.stages k = some sr →
      sr.duration_ms.isSome = true → rest.countP (isStageCompletedFor k) = 0 := by
    intro k sr hl hd
    have := (hS k sr hl).2 hd
    rw [List.countP_cons] at this
    omega
  have keepJ : ∀ (st' : ParserState), st'.jobs = st.jobs →
      (∀ k jr, alookup st'.jobs k = some jr →
        jobDurOk jr ∧ (jr.duration_ms.isSome = true →
          rest.countP (isJobEndFor k) = 0)) := by
    intro st' hst' k jr hl
    rw [hst'] at hl
    exact ⟨(hJ k jr hl).1, fun hd => tailJ k jr hl hd⟩
  have keepS : ∀ (st' : ParserState), st'.stages = st.stages →
      (∀ k sr, alookup st'.stages k = some sr →
        stageDurOk sr ∧ (sr.duration_ms.isSome = true →
          rest.countP (isStageCompletedFor k) = 0)) := by
    intro st' hst' k sr hl
    rw [hst'] at hl
    exact ⟨(hS k sr hl).1, fun hd => tailS k sr hl hd⟩
  cases e with
  | applicationStart n i t u => exact ⟨keepJ _ rfl, keepS _ rfl⟩
  | applicationEnd t =>
    have hjobs : (parseEvent st (.applicationEnd t)).jobs = st.jobs := by
      simp only [parseEvent]
      split
      · split <;> rfl
      · rfl
    have hstages : (parseEvent st (.applicationEnd t)).stages = st.stages := by
      simp only [parseEvent]
      split
      · split <;> rfl
      · rfl
    exact ⟨keepJ _ hjobs, keepS _ hstages⟩
  | other => exact ⟨keepJ _ rfl, keepS _ rfl⟩
  | jobStart j sub sids =>
    constructor
    · intro k jr hl
      simp only [parseEvent] at hl
      by_cases hk : j = k
      · subst hk
        rw [alookup_aupdate_self] at hl
        injection hl with hl
        constructor
        · intro d hd
          rw [← hl] at hd
          simp at hd
        · intro hd
          rw [← hl] at hd
          simp at hd
      · rw [alookup_aupdate_ne _ _ _ _ hk] at hl
        exact ⟨(hJ k jr hl).1, fun hd => tailJ k jr hl hd⟩
    · exact keepS _ rfl
  | stageSubmitted info =>
    constructor
    · exact keepJ _ rfl
    · intro k sr hl
      simp only [parseEvent] at hl
      by_cases hk : info.stage_id = k
      · subst hk
        rw [alookup_aupdate_self] at hl
        injection hl with hl
        constructor
        · intro d hd
          rw [← hl] at hd
          simp at hd
        · intro hd
          rw [← hl] at hd
          simp at hd
      · rw [alookup_aupdate_ne _ _ _ _ hk] at hl
        exact ⟨(hS k sr hl).1, fun hd => tailS k sr hl hd⟩
  | jobEnd j ct res =>
    cases halo : alookup st.jobs j with
    | none =>
      have heq : parseEvent st (.jobEnd j ct res) = st := by
        simp only [parseEvent, halo]
      rw [heq]
      exact ⟨keepJ _ rfl, keepS _ rfl⟩
    | some jr0 =>
      have hpe : isJobEndFor j (LogEvent.jobEnd j ct res) = true := by
        simp [isJobEndFor]
      have hj0 : rest.countP (isJobEndFor j) = 0 := by
        have h0 := hj1 j
        rw [List.countP_cons] at h0
        simp only [hpe, eq_self_iff_true, if_true] at h0
        omega
      have hnodur : jr0.duration_ms = none := by
        cases hdm : jr0.duration_ms with
        | none => rfl
        | some d =>
          have h0 := (hJ j jr0 halo).2 (by simp [hdm])
          rw [List.countP_cons] at h0
          simp only [hpe, eq_self_iff_true, if_true] at h0
          exact absurd h0 (by omega)
      have hjobsSide : ∀ (jr' : JobRecord),
          (jobDurOk jr' ∧ (jr'.duration_ms.isSome = true →
            rest.countP (isJobEndFor j) = 0)) →
          (∀ k jr, alookup (aupdate st.jobs j jr') k = some jr →
            jobDurOk jr ∧ (jr.duration_ms.isSome = true →
              rest.countP (isJobEndFor k) = 0)) := by
        intro jr' hok k jr hl
        by_cases hk : j = k
        · subst hk
          rw [alookup_aupdate_self] at hl
          injection hl with hl
          rw [← hl]
          exact hok
        · rw [alookup_aupdate_ne _ _ _ _ hk] at hl
          exact ⟨(hJ k jr hl).1, fun hd => tailJ k jr hl hd⟩
      have hvac : ∀ (jr' : JobRecord), jr'.duration_ms = none →
          (jobDurOk jr' ∧ (jr'.duration_ms.isSome = true →
            rest.countP (isJobEndFor j) = 0)) := by
        intro jr' hd
        constructor
        · intro d hdd
          rw [hd] at hdd
          simp at hdd
        · intro hdd
          rw [hd] at hdd
          simp at hdd
      simp only [parseEvent, halo]
      cases hbs : truthyInt jr0.submission_time with
      | false =>
        simp only [Bool.false_eq_true, if_false]
        refine ⟨?_, ?_⟩
        · intro k jr hl
          rw [bumpJobCounters_jobs] at hl
          exact hjobsSide ({ jr0 with completion_time := ct, result := res, status := res.getD "UNKNOWN" }) (hvac ({ jr0 with completion_time := ct, result := res, status := res.getD "UNKNOWN" }) hnodur) k jr hl
        · intro k sr hl
          rw [bumpJobCounters_stages] at hl
          exact keepS _ rfl k sr hl
      | true =>
        rw [if_pos rfl]
        obtain ⟨s, hsub, hs0⟩ : ∃ s, jr0.submission_time = some s ∧ s ≠ 0 := by
          cases hsub : jr0.submission_time with
          | none => rw [hsub] at hbs; simp [truthyInt] at hbs
          | some s =>
            rw [hsub] at hbs
            simp only [truthyInt, bne_iff_ne] at hbs
            exact ⟨s, rfl, hbs⟩
        cases ct with
        | none =>
          dsimp only
          refine ⟨?_, keepS _ rfl⟩
          intro k jr hl
          exact hjobsSide ({ jr0 with completion_time := none, result := res, status := res.getD "UNKNOWN" }) (hvac ({ jr0 with completion_time := none, result := res, status := res.getD "UNKNOWN" }) hnodur) k jr hl
        | some c =>
          dsimp only
          refine ⟨?_, ?_⟩
          · intro k jr hl
            rw [bumpJobCounters_jobs] at hl
            refine hjobsSide _ ⟨?_, fun _ => hj0⟩ k jr hl
            intro d hd
            simp only [hsub, Option.getD_some, Option.some.injEq] at hd
            exact ⟨s, c, hsub, hs0, rfl, by omega⟩
          · intro k sr hl
            rw [bumpJobCounters_stages] at hl
            exact keepS _ rfl k sr hl
  | stageCompleted info =>
    cases halo : alookup st.stages info.stage_id with
    | none =>
      have heq : parseEvent st (.stageCompleted info) = st := by
        simp only [parseEvent, halo]
      rw [heq]
      exact ⟨keepJ _ rfl, keepS _ rfl⟩
    | some sr0 =>
      have hpe : isStageCompletedFor info.stage_id (LogEvent.stageCompleted info) = true := by
        simp [isStageCompletedFor]
      have hs0cnt : rest.countP (isStageCompletedFor info.stage_id) = 0 := by
        have h0 := hs1 info.stage_id
        rw [List.countP_cons] at h0
        simp only [hpe, eq_self_iff_true, if_true] at h0
        omega
      have hnodur : sr0.duration_ms = none := by
        cases hdm : sr0.duration_ms with
        | none => rfl
        | some d =>
          have h0 := (hS info.stage_id sr0 halo).2 (by simp [hdm])
          rw [List.countP_cons] at h0
          simp only [hpe, eq_self_iff_true, if_true] at h0
          exact absurd h0 (by omega)
      have hstagesSide : ∀ (sr' : StageRecord),
          (stageDurOk sr' ∧ (sr'.duration_ms.isSome = true →
            rest.countP (isStageCompletedFor info.stage_id) = 0)) →
          (∀ k sr, alookup (aupdate st.stages info.stage_id sr') k = some sr →
            stageDurOk sr ∧ (sr.duration_ms.isSome = true →
              rest.countP (isStageCompletedFor k) = 0)) := by
        intro sr' hok k sr hl
        by_cases hk : info.stage_id = k
        · subst hk
          rw [alookup_aupdate_self] at hl
          injection hl with hl
          rw [← hl]
          exact hok
        · rw [alookup_aupdate_ne _ _ _ _ hk] at hl
          exact ⟨(hS k sr hl).1, fun hd => tailS k sr hl hd⟩
      have hvacS : ∀ (sr' : StageRecord), sr'.duration_ms = none →
          (stageDurOk sr' ∧ (sr'.duration_ms.isSome = true →
            rest.countP (isStageCompletedFor info.stage_id) = 0)) := by
        intro sr' hd
        constructor
        · intro d hdd
          rw [hd] at hdd
          simp at hdd
        · intro hdd
          rw [hd] at hdd
          simp at hdd
      simp only [parseEvent, halo]
      cases hb : truthyInt sr0.submission_time && truthyInt info.completion_time with
      | false =>
        simp only [Bool.false_eq_true, if_false]
        exact ⟨keepJ _ rfl, hstagesSide ({ sr0 with completion_time := info.completion_time, status := some (info.stage_status.getD "UNKNOWN"), failure_reason := if truthyStr info.failure_reason then info.failure_reason else sr0.failure_reason }) (hvacS ({ sr0 with completion_time := info.completion_time, status := some (info.stage_status.getD "UNKNOWN"), failure_reason := if truthyStr info.failure_reason then info.failure_reason else sr0.failure_reason }) hnodur)⟩
      | true =>
        rw [if_pos rfl]
        rw [Bool.and_eq_true] at hb
        obtain ⟨hbs, hbc⟩ := hb
        obtain ⟨s, hsub, hs0⟩ : ∃ s, sr0.submission_time = some s ∧ s ≠ 0 := by
          cases hsub : sr0.submission_time with
          | none => rw [hsub] at hbs; simp [truthyInt] at hbs
          | some s =>
            rw [hsub] at hbs
            simp only [truthyInt, bne_iff_ne] at hbs
            exact ⟨s, rfl, hbs⟩
        obtain ⟨c, hcomp, hc0⟩ : ∃ c, info.completion_time = some c ∧ c ≠ 0 := by
          cases hcomp : info.completion_time with
          | none => rw [hcomp] at hbc; simp [truthyInt] at hbc
          | some c =>
            rw [hcomp] at hbc
            simp only [truthyInt, bne_iff_ne] at hbc
            exact ⟨c, rfl, hbc⟩
        refine ⟨keepJ _ rfl, hstagesSide _ ⟨?_, fun _ => hs0cnt⟩⟩
        intro d hd
        simp only [hsub, hcomp, Option.getD_some, Option.some.injEq] at hd
        exact ⟨s, c, hsub, hs0, hcomp, hc0, by omega⟩

/-- The invariant propagates through a whole pass. -/
theorem stateOk_foldl : ∀ (evs : List LogEvent) (st : ParserState),
    (∀ k, evs.countP (isJobEndFor k) ≤ 1) →
    (∀ k, evs.countP (isStageCompletedFor k) ≤ 1) →
    stateOk st evs → stateOk (evs.foldl parseEvent st) [] := by
  intro evs
  induction evs with
  | nil => intro st _ _ h; exact h
  | cons e rest ih =>
    intro st h1 h2 h
    simp only [List.foldl_cons]
    refine ih (parseEvent st e) ?_ ?_ (stateOk_step st e rest h1 h2 h)
    · intro k
      have := h1 k
      rw [List.countP_cons] at this
      omega
    · intro k
      have := h2 k
      rw [List.countP_cons] at this
      omega

/-- The line loop is the event fold with decode failures dropped. -/
theorem foldl_parseLine_eq (l : List (Option LogEvent)) :
    ∀ s : ParserState, l.foldl parseLine s = (l.filterMap id).foldl parseEvent s := by
  induction l with
  | nil => intro s; rfl
  | cons a t ih =>
    intro s
    cases a <;> simp [parseLine, List.filterMap_cons, ih]

/-- Claim C8, counterexample: the claim says a derived duration is never
negative, but a job submitted at 1000 and ended at 500 is stored with
`duration_ms = -500` (correctly surfaced rather than clamped). -/
theorem negative_duration_surfaced_counterexample :
    (alookup (parseLogLines [some (.jobStart (some 1) (some 1000) []),
      some (.jobEnd (some 1) (some 500) (some "JobSucceeded"))]).jobs
      (some 1)).map JobRecord.duration_ms = some (some (-500)) ∧
    (-500 : ℤ) < 0 :=
  ⟨rfl, by norm_num⟩

/-- Claim C8, amended: over any line sequence delivering at most one
`JobEnd` per job id and at most one `StageCompleted` per stage id, every
stored duration is present only when the record's submission time is
present (and nonzero) and its completion time is present (nonzero for
stages), and equals completion − submission exactly — so a negative
difference is surfaced unchanged, never clamped or hidden. -/
theorem duration_presence_invariant :
    ∀ lines : List (Option LogEvent),
      (∀ k, (eventsOf lines).countP (isJobEndFor k) ≤ 1) →
      (∀ k, (eventsOf lines).countP (isStageCompletedFor k) ≤ 1) →
      (∀ k jr, alookup (parseLogLines lines).jobs k = some jr → jobDurOk jr) ∧
      (∀ k sr, alookup (parseLogLines lines).stages k = some sr → stageDurOk sr) := by
  intro lines h1 h2
  have hpe : parseLogLines lines = (eventsOf lines).foldl parseEvent initialState :=
    foldl_parseLine_eq lines initialState
  have h0 : stateOk initialState (eventsOf lines) := by
    constructor
    · intro k jr hl
      simp [initialState, alookup] at hl
    · intro k sr hl
      simp [initialState, alookup] at hl
  have hfin := stateOk_foldl (eventsOf lines) initialState h1 h2 h0
  rw [hpe]
  exact ⟨fun k jr hl => (hfin.1 k jr hl).1, fun k sr hl => (hfin.2 k sr hl).1⟩

/-- Witness for C8's amended theorem on the concrete well-formed log of the
spec's job scenario. -/
theorem duration_presence_invariant_witness :
    jobDurOk (⟨some 1, some 1000, [1], "JobSucceeded", some 1500, some "JobSucceeded", some 500⟩ : JobRecord) :=
  (duration_presence_invariant
    [some (.jobStart (some 1) (some 1000) [1]),
     some (.jobEnd (some 1) (some 1500) (some "JobSucceeded"))]
    (by
      intro k
      simp only [eventsOf, List.filterMap_cons, id, List.filterMap_nil,
        List.countP_cons, List.countP_nil, isJobEndFor, Bool.false_eq_true,
        if_false]
      split <;> omega)
    (by
      intro k
      simp only [eventsOf, List.filterMap_cons, id, List.filterMap_nil,
        List.countP_cons, List.countP_nil, isStageCompletedFor,
        Bool.false_eq_true, if_false]
      omega)).1
    (some 1) _ rfl

end DeltaOptima
